import Mathlib

/-!
# Verification of the BotGlue environment lifecycle core

Shallow embedding of the daemon's environment model, state store, port
allocator and lifecycle handlers.  The SQLite-backed store functions in
`daemon/src/models/environment.rs` are translated row-for-row from the
source (`src/unnamed/part_000`); rows live in a `Db` value and SQL
statements become list operations.  Identifiers generated at runtime
(UUIDs, timestamps) and outcomes of external `podman` subprocess calls
are passed in as explicit parameters.
-/

namespace BotGlue

/-- `PortMapping` from `daemon/src/models/environment.rs`: a named
container-port/host-port pair.  `host_port` is unset on a request
wishlist and filled in by the allocator.  Ports are `u16` in the source,
embedded as `Nat` (no arithmetic is performed on them). -/
structure PortMapping where
  name : String
  container_port : Nat
  host_port : Option Nat
  protocol : Option String
deriving DecidableEq, Repr

/-- `Environment` from `daemon/src/models/environment.rs`: one row of the
`environments` table (`id` is the primary key; `status` is a plain
string; `ports` is stored as JSON in the source). -/
structure Environment where
  id : String
  project_id : String
  branch : String
  status : String
  container_id : String
  ports : List PortMapping
  created_at : String
  last_active : String
deriving DecidableEq, Repr

/-- `CreateEnvironment` request payload from
`daemon/src/models/environment.rs`. -/
structure CreateEnvironment where
  project_id : String
  branch : String
  ports : Option (List PortMapping)
deriving DecidableEq, Repr

/-- The `environments` table of the SQLite database, embedded as the
list of its rows in insertion order. -/
structure Db where
  environments : List Environment
deriving DecidableEq, Repr

/-- `get_environment` (`environment.rs`): `SELECT ... WHERE id = ?1`,
returning the first matching row. -/
def get_environment (db : Db) (id : String) : Option Environment :=
  db.environments.find? (fun e => decide (e.id = id))

/-- Descending `created_at` order used by `list_environments`
(`ORDER BY created_at DESC`). -/
def created_desc (a b : Environment) : Prop :=
  b.created_at ≤ a.created_at

instance : DecidableRel created_desc :=
  fun a b => inferInstanceAs (Decidable (b.created_at ≤ a.created_at))

instance : IsTotal Environment created_desc :=
  ⟨fun a b => le_total b.created_at a.created_at⟩

instance : IsTrans Environment created_desc :=
  ⟨fun _ _ _ hab hbc => le_trans hbc hab⟩

/-- `list_environments` (`environment.rs`):
`SELECT ... WHERE project_id = ?1 ORDER BY created_at DESC`.  Embedded
as: filter the rows on `project_id` (note: no filter on `status`), then
sort by `created_at` descending. -/
def list_environments (db : Db) (project_id : String) : List Environment :=
  List.insertionSort created_desc
    (db.environments.filter (fun e => decide (e.project_id = project_id)))

/-- `create_environment` (`environment.rs`): inserts a fresh row with
status `"creating"`, empty `container_id`, the caller's wishlist ports
(defaulting to `[]`), and `created_at = last_active = now`.  The UUID
`id` and the timestamp `now` are parameters of the embedding. -/
def create_environment (db : Db) (input : CreateEnvironment) (id now : String) :
    Db × Environment :=
  let env : Environment :=
    { id := id
      project_id := input.project_id
      branch := input.branch
      status := "creating"
      container_id := ""
      ports := input.ports.getD []
      created_at := now
      last_active := now }
  (⟨db.environments ++ [env]⟩, env)

/-- SQL `UPDATE environments SET ... WHERE id = ?`: apply `f` to every
row whose `id` matches (the primary key makes this at most one row in a
well-formed database). -/
def update_row (db : Db) (id : String) (f : Environment → Environment) : Db :=
  ⟨db.environments.map (fun e => if e.id = id then f e else e)⟩

/-- `update_environment_status` (`environment.rs`):
`UPDATE environments SET status = ?1, last_active = ?2 WHERE id = ?3`;
returns whether a row was matched.  No check of the previous status is
performed. -/
def update_environment_status (db : Db) (id status now : String) : Bool × Db :=
  (db.environments.any (fun e => decide (e.id = id)),
   update_row db id (fun e => { e with status := status, last_active := now }))

/-- `delete_environment` (`environment.rs`):
`DELETE FROM environments WHERE id = ?1`; returns whether a row was
matched.  The row is physically removed. -/
def delete_environment (db : Db) (id : String) : Bool × Db :=
  (db.environments.any (fun e => decide (e.id = id)),
   ⟨db.environments.filter (fun e => !decide (e.id = id))⟩)

/-- Host ports persisted on one environment row. -/
def host_ports (e : Environment) : List Nat :=
  e.ports.filterMap (fun m => m.host_port)

/-- Modelled from the spec: `get_used_ports` (described in the podman
plan, Task 2; `daemon/src/models/environment.rs` after that plan is not
under version control here) — "queries all non-destroyed environments,
extracts host_port from their ports JSON".  Embedded as the list of all
persisted `host_port` values of rows whose status is not `"destroyed"`;
the source folds this collection into a `HashSet`, so only membership is
observable there, while the list form also records multiplicity. -/
def get_used_ports (db : Db) : List Nat :=
  ((db.environments.filter (fun e => !decide (e.status = "destroyed"))).map
    host_ports).flatten

/-- Modelled from the spec: `update_environment_container` (podman plan,
Task 2; implementation not under version control here) — "updates
container_id, ports JSON, status, and last_active", returning whether a
row was matched. -/
def update_environment_container (db : Db) (id container_id : String)
    (ports : List PortMapping) (status now : String) : Bool × Db :=
  (db.environments.any (fun e => decide (e.id = id)),
   update_row db id (fun e =>
     { e with container_id := container_id, ports := ports,
              status := status, last_active := now }))

/-- `PodmanError` from `daemon/src/podman.rs` (podman plan, Task 1). -/
inductive PodmanError where
  | NotInstalled : PodmanError
  | CommandFailed (command stderr : String) (exit_code : Int) : PodmanError
  | ParseError (msg : String) : PodmanError
deriving DecidableEq, Repr

/-- `PodmanConfig` from `daemon/src/podman.rs` (podman plan, Task 1):
binary path and inclusive host-port range, defaults
`("podman", 10000, 11000)`. -/
structure PodmanConfig where
  podman_path : String
  port_range_start : Nat
  port_range_end : Nat
deriving DecidableEq, Repr

/-- `ExecResult` from `daemon/src/podman.rs` (podman plan, Task 1). -/
structure ExecResult where
  output : String
  exit_code : Int
deriving DecidableEq, Repr

/-- Allocation failures of the port allocator (spec §4.2 / §7 error
taxonomy): an explicitly requested port is already taken, or the range
holds no free port. -/
inductive AllocError where
  | PortConflict : AllocError
  | RangeExhausted : AllocError
deriving DecidableEq, Repr

/-- Modelled from the spec: the ascending scan of the allocator (§4.2) —
starting at `lo`, try `n` consecutive ports, skip any port in the
working used-set, and return the first free one (`none` when the scan
exhausts the range). -/
def find_free_port (used : List Nat) : Nat → Nat → Option Nat
  | _, 0 => none
  | lo, n + 1 => if lo ∈ used then find_free_port used (lo + 1) n else some lo

/-- Modelled from the spec: the body of `allocate_ports` (§4.2; the
`daemon/src/podman.rs` implementation is not under version control
here), processing the requested mappings in order against the working
used-set `used`.  A mapping with `host_port` set keeps its port if it is
not in the working set (else `PortConflict`); a mapping with `host_port`
unset receives the first free port of the ascending scan over
`[lo, hi]` (else `RangeExhausted`); either way the claimed port joins
the working set for the remaining mappings. -/
def allocate_go (lo hi : Nat) (used : List Nat) :
    List PortMapping → Except AllocError (List PortMapping)
  | [] => .ok []
  | m :: rest =>
    match m.host_port with
    | some p =>
      if p ∈ used then .error .PortConflict
      else
        match allocate_go lo hi (p :: used) rest with
        | .error e => .error e
        | .ok tl => .ok (m :: tl)
    | none =>
      match find_free_port used lo (hi + 1 - lo) with
      | none => .error .RangeExhausted
      | some p =>
        match allocate_go lo hi (p :: used) rest with
        | .error e => .error e
        | .ok tl => .ok ({ m with host_port := some p } :: tl)

/-- Modelled from the spec: `allocate_ports` (§4.2, podman plan Task 2)
— the pure allocator, run over the configured range. -/
def allocate_ports (config : PodmanConfig) (used : List Nat)
    (requested : List PortMapping) : Except AllocError (List PortMapping) :=
  allocate_go config.port_range_start config.port_range_end used requested

/-- Errors surfaced by the environment route handlers (spec §6: the
orchestrator's public error contract). -/
inductive ApiError where
  | NotFound : ApiError
  | Conflict : ApiError
  | AllocFailed (e : AllocError) : ApiError
  | RuntimeFailed (e : PodmanError) : ApiError
deriving DecidableEq, Repr

/-- Modelled from the spec: the `create` handler after the podman plan
(Task 4; the post-plan `daemon/src/routes/environments.rs` is not under
version control here).  Steps: (1) insert a `"creating"` row carrying
the caller's wishlist; (2) run the allocator against the used-port set
of the rows present before this call's insert (the inserted row is the
one being allocated for, so its own wishlist is not part of "what's
taken"); on allocator failure set the row's status to `"destroyed"` and
surface the error; (3) the container-runtime outcome enters as the
`runtime` parameter — on failure set the row to `"destroyed"` and
surface the error; (4) on success persist `container_id`, the allocated
ports and status `"running"` in one store call and return the updated
row. -/
def create_handler (db : Db) (input : CreateEnvironment) (id now : String)
    (config : PodmanConfig) (runtime : Except PodmanError String) :
    Db × Except ApiError Environment :=
  let requested := input.ports.getD []
  let used := get_used_ports db
  let db1 := (create_environment db input id now).1
  match allocate_ports config used requested with
  | .error e =>
      ((update_environment_status db1 id "destroyed" now).2, .error (.AllocFailed e))
  | .ok allocated =>
    match runtime with
    | .error pe =>
        ((update_environment_status db1 id "destroyed" now).2, .error (.RuntimeFailed pe))
    | .ok container_id =>
      let db2 := (update_environment_container db1 id container_id allocated "running" now).2
      (db2,
       match get_environment db2 id with
       | some env => .ok env
       | none => .error .NotFound)

/-- Modelled from the spec: the `pause` handler after the podman plan
(Task 4).  Requires current status `"running"` (else 409 Conflict);
stops the container when `container_id` is non-empty (the outcome enters
as the `stop` parameter; a hard stop error is surfaced with the status
left unchanged); then updates the status to `"paused"`. -/
def pause_handler (db : Db) (id now : String)
    (stop : Except PodmanError Unit) : Db × Except ApiError Unit :=
  match get_environment db id with
  | none => (db, .error .NotFound)
  | some env =>
    if env.status = "running" then
      if env.container_id = "" then
        ((update_environment_status db id "paused" now).2, .ok ())
      else
        match stop with
        | .error e => (db, .error (.RuntimeFailed e))
        | .ok () => ((update_environment_status db id "paused" now).2, .ok ())
    else (db, .error .Conflict)

/-- Modelled from the spec: the `resume` handler after the podman plan
(Task 4).  Requires current status `"paused"` (else 409 Conflict);
starts the container when `container_id` is non-empty; then updates the
status to `"running"`. -/
def resume_handler (db : Db) (id now : String)
    (start : Except PodmanError Unit) : Db × Except ApiError Unit :=
  match get_environment db id with
  | none => (db, .error .NotFound)
  | some env =>
    if env.status = "paused" then
      if env.container_id = "" then
        ((update_environment_status db id "running" now).2, .ok ())
      else
        match start with
        | .error e => (db, .error (.RuntimeFailed e))
        | .ok () => ((update_environment_status db id "running" now).2, .ok ())
    else (db, .error .Conflict)

/-- Modelled from the spec: the `delete` handler after the podman plan
(Task 4).  Fetches the row, best-effort removes the container (the
runtime outcome is logged and ignored, so it does not appear here), and
deletes the row from the database. -/
def delete_handler (db : Db) (id : String) : Db × Except ApiError Unit :=
  match get_environment db id with
  | none => (db, .error .NotFound)
  | some _ =>
    let r := delete_environment db id
    (r.2, if r.1 then .ok () else .error .NotFound)

/-- Modelled from the spec: the `exec` handler (podman plan, Task 5).
Requires current status `"running"` (else 409 Conflict) and a non-empty
`container_id` (else 409 Conflict); delegates to
`podman::exec_in_container` (its outcome enters as the `runtime`
parameter) and returns the result unmodified.  The handler performs no
database write. -/
def exec_handler (db : Db) (id : String) (_command : String)
    (runtime : Except PodmanError ExecResult) : Db × Except ApiError ExecResult :=
  match get_environment db id with
  | none => (db, .error .NotFound)
  | some env =>
    if env.status = "running" then
      if env.container_id = "" then (db, .error .Conflict)
      else
        match runtime with
        | .error e => (db, .error (.RuntimeFailed e))
        | .ok r => (db, .ok r)
    else (db, .error .Conflict)

/-- Reachable store states under interleaved `create` calls (spec §8,
port disjointness).  The store's mutex serializes each create's
read-used-ports/write-new-ports sequence (spec §5), so an interleaving
of creates is a sequence of atomic `create_handler` steps; the UUID `id`
of each step is fresh (`id` is the table's primary key). -/
inductive Reachable : Db → Prop where
  | init : Reachable ⟨[]⟩
  | create (db : Db) (input : CreateEnvironment) (id now : String)
      (config : PodmanConfig) (runtime : Except PodmanError String)
      (h : Reachable db) (hfresh : get_environment db id = none) :
      Reachable (create_handler db input id now config runtime).1

/-! ## Store lemmas -/

theorem map_update_fresh (l : List Environment) (id : String)
    (f : Environment → Environment) (hfresh : ∀ e ∈ l, e.id ≠ id) :
    l.map (fun e => if e.id = id then f e else e) = l := by
  induction l with
  | nil => rfl
  | cons a tl ih =>
    have ha : a.id ≠ id := hfresh a (by simp)
    simp only [List.map_cons, if_neg ha]
    rw [ih (fun e he => hfresh e (by simp [he]))]

theorem fresh_of_get_none (db : Db) (id : String)
    (h : get_environment db id = none) : ∀ e ∈ db.environments, e.id ≠ id := by
  rw [get_environment, List.find?_eq_none] at h
  intro e he
  simpa using h e he

theorem find?_map_update (l : List Environment) (id : String) (env : Environment)
    (f : Environment → Environment)
    (hget : l.find? (fun e => decide (e.id = id)) = some env)
    (hf : (f env).id = env.id) :
    (l.map (fun e => if e.id = id then f e else e)).find?
      (fun e => decide (e.id = id)) = some (f env) := by
  induction l with
  | nil => simp at hget
  | cons a tl ih =>
    by_cases ha : a.id = id
    · rw [List.find?_cons_of_pos _ (by simpa using ha)] at hget
      have hae : a = env := by simpa using hget
      subst hae
      simp only [List.map_cons, if_pos ha]
      exact List.find?_cons_of_pos _ (by simp [hf, ha])
    · rw [List.find?_cons_of_neg _ (by simpa using ha)] at hget
      simp only [List.map_cons, if_neg ha]
      rw [List.find?_cons_of_neg _ (by simpa using ha)]
      exact ih hget

theorem get_update_row (db : Db) (id : String) (env : Environment)
    (f : Environment → Environment)
    (hget : get_environment db id = some env) (hf : (f env).id = env.id) :
    get_environment (update_row db id f) id = some (f env) :=
  find?_map_update db.environments id env f hget hf

theorem mem_update_row_of_ne (db : Db) (id : String) (f : Environment → Environment)
    (e : Environment) (he : e ∈ db.environments) (hne : e.id ≠ id) :
    e ∈ (update_row db id f).environments := by
  have := List.mem_map_of_mem (fun e => if e.id = id then f e else e) he
  simpa [update_row, if_neg hne] using this

theorem get_append_fresh (l : List Environment) (env : Environment) (id : String)
    (hfresh : ∀ e ∈ l, e.id ≠ id) (hid : env.id = id) :
    get_environment ⟨l ++ [env]⟩ id = some env := by
  rw [get_environment]
  show (l ++ [env]).find? (fun e => decide (e.id = id)) = some env
  rw [List.find?_append]
  have h1 : l.find? (fun e => decide (e.id = id)) = none :=
    List.find?_eq_none.mpr (fun x hx => by simpa using hfresh x hx)
  rw [h1]
  simp [hid]

theorem update_row_append (l : List Environment) (env : Environment) (id : String)
    (f : Environment → Environment)
    (hfresh : ∀ e ∈ l, e.id ≠ id) (hid : env.id = id) :
    update_row ⟨l ++ [env]⟩ id f = ⟨l ++ [f env]⟩ := by
  simp only [update_row, List.map_append, List.map_cons, List.map_nil, Db.mk.injEq]
  rw [map_update_fresh l id f hfresh, if_pos hid]

theorem get_used_ports_append (l : List Environment) (env : Environment) :
    get_used_ports ⟨l ++ [env]⟩ =
      get_used_ports ⟨l⟩ ++
        (if env.status = "destroyed" then [] else host_ports env) := by
  by_cases h : env.status = "destroyed" <;>
    simp [get_used_ports, List.filter_append, h]

theorem any_of_get_some (db : Db) (id : String) (env : Environment)
    (h : get_environment db id = some env) :
    db.environments.any (fun e => decide (e.id = id)) = true := by
  rw [get_environment] at h
  rw [List.any_eq_true]
  have hp := List.find?_some h
  have hm := List.mem_of_find?_eq_some h
  exact ⟨env, hm, by simpa using hp⟩

/-! ## Allocator lemmas -/

/-- Host ports claimed by a list of port mappings. -/
def ports_of (l : List PortMapping) : List Nat :=
  l.filterMap (fun m => m.host_port)

/-- `p` is the first free port of the ascending scan of `[lo, hi]` with
respect to `used`: it lies in the range, is not used, and every smaller
port of the range is used. -/
def least_free (used : List Nat) (lo hi p : Nat) : Prop :=
  lo ≤ p ∧ p ≤ hi ∧ p ∉ used ∧ ∀ q, lo ≤ q → q < p → q ∈ used

theorem least_free_congr {u v : List Nat} (huv : ∀ x, x ∈ u ↔ x ∈ v)
    {lo hi p : Nat} (h : least_free u lo hi p) : least_free v lo hi p := by
  obtain ⟨h1, h2, h3, h4⟩ := h
  exact ⟨h1, h2, fun hv => h3 ((huv p).mpr hv),
    fun q hq1 hq2 => (huv q).mp (h4 q hq1 hq2)⟩

theorem find_free_port_some (used : List Nat) :
    ∀ (n lo p : Nat), find_free_port used lo n = some p →
      lo ≤ p ∧ p < lo + n ∧ p ∉ used ∧ ∀ q, lo ≤ q → q < p → q ∈ used := by
  intro n
  induction n with
  | zero => intro lo p h; simp [find_free_port] at h
  | succ n ih =>
    intro lo p h
    rw [find_free_port] at h
    by_cases hlo : lo ∈ used
    · rw [if_pos hlo] at h
      obtain ⟨h1, h2, h3, h4⟩ := ih (lo + 1) p h
      refine ⟨by omega, by omega, h3, ?_⟩
      intro q hq1 hq2
      by_cases hq : q = lo
      · exact hq ▸ hlo
      · exact h4 q (by omega) hq2
    · rw [if_neg hlo] at h
      obtain rfl : lo = p := by simpa using h
      exact ⟨Nat.le_refl _, by omega, hlo, fun q hq1 hq2 => absurd hq2 (by omega)⟩

theorem find_free_port_none (used : List Nat) :
    ∀ (n lo : Nat), find_free_port used lo n = none →
      ∀ q, lo ≤ q → q < lo + n → q ∈ used := by
  intro n
  induction n with
  | zero => intro lo _ q hq1 hq2; omega
  | succ n ih =>
    intro lo h q hq1 hq2
    rw [find_free_port] at h
    by_cases hlo : lo ∈ used
    · rw [if_pos hlo] at h
      by_cases hq : q = lo
      · exact hq ▸ hlo
      · exact ih (lo + 1) h q (by omega) (by omega)
    · rw [if_neg hlo] at h
      simp at h

/-- Ports handed out by a successful allocation are mutually distinct
and avoid the incoming used-set: the heart of port disjointness. -/
theorem allocate_go_fresh (lo hi : Nat) :
    ∀ (req : List PortMapping) (used : List Nat) (out : List PortMapping),
      allocate_go lo hi used req = .ok out →
      (ports_of out).Nodup ∧ ∀ p ∈ ports_of out, p ∉ used := by
  intro req
  induction req with
  | nil =>
    intro used out h
    rw [allocate_go] at h
    simp only [Except.ok.injEq] at h
    subst h
    exact ⟨List.nodup_nil, by simp [ports_of]⟩
  | cons m rest ih =>
    intro used out h
    rw [allocate_go] at h
    split at h
    · -- m.host_port = some p
      rename_i p heq
      split at h
      · simp at h
      · rename_i hp
        split at h
        · simp at h
        · rename_i tl hrec
          simp only [Except.ok.injEq] at h
          subst h
          obtain ⟨htl1, htl2⟩ := ih (p :: used) tl hrec
          constructor
          · simp only [ports_of, List.filterMap_cons, heq]
            refine List.nodup_cons.mpr ⟨fun hmem => ?_, htl1⟩
            exact (htl2 p hmem) (by simp)
          · intro q hq
            simp only [ports_of, List.filterMap_cons, heq, List.mem_cons] at hq
            rcases hq with rfl | hq
            · exact hp
            · intro hqu
              exact (htl2 q hq) (by simp [hqu])
    · -- m.host_port = none
      rename_i heq
      split at h
      · simp at h
      · rename_i p hfind
        split at h
        · simp at h
        · rename_i tl hrec
          simp only [Except.ok.injEq] at h
          subst h
          obtain ⟨_, hp, _⟩ := (find_free_port_some used (hi + 1 - lo) lo p hfind).2
          obtain ⟨htl1, htl2⟩ := ih (p :: used) tl hrec
          constructor
          · simp only [ports_of, List.filterMap_cons]
            refine List.nodup_cons.mpr ⟨fun hmem => ?_, htl1⟩
            exact (htl2 p hmem) (by simp)
          · intro q hq
            simp only [ports_of, List.filterMap_cons, List.mem_cons] at hq
            rcases hq with rfl | hq
            · exact hp
            · intro hqu
              exact (htl2 q hq) (by simp [hqu])

/-- First-fit characterization of `allocate_go`: every mapping that came
in with `host_port` unset leaves with the least free port of the range,
measured against the incoming used-set extended by the ports claimed by
the earlier mappings of the same call. -/
theorem allocate_go_first_fit (lo hi : Nat) :
    ∀ (req : List PortMapping) (used : List Nat) (out : List PortMapping),
      allocate_go lo hi used req = .ok out →
      out.length = req.length ∧
      ∀ i m, req[i]? = some m → m.host_port = none →
        ∃ p, out[i]? = some { m with host_port := some p } ∧
          least_free (used ++ ports_of (out.take i)) lo hi p := by
  intro req
  induction req with
  | nil =>
    intro used out h
    rw [allocate_go] at h
    simp only [Except.ok.injEq] at h
    subst h
    exact ⟨rfl, by intro i m him; simp at him⟩
  | cons m0 rest ih =>
    intro used out h
    rw [allocate_go] at h
    split at h
    · rename_i p heq
      split at h
      · simp at h
      · split at h
        · simp at h
        · rename_i tl hrec
          simp only [Except.ok.injEq] at h
          subst h
          obtain ⟨hlen, hff⟩ := ih (p :: used) tl hrec
          refine ⟨by simpa using hlen, ?_⟩
          intro i m him hnone
          cases i with
          | zero =>
            simp only [List.getElem?_cons_zero, Option.some.injEq] at him
            subst him
            rw [heq] at hnone
            simp at hnone
          | succ i =>
            simp only [List.getElem?_cons_succ] at him
            obtain ⟨p', hp', hlf⟩ := hff i m him hnone
            refine ⟨p', by simpa [List.getElem?_cons_succ] using hp', ?_⟩
            refine least_free_congr (fun x => ?_) hlf
            simp only [List.take_succ_cons, ports_of, List.filterMap_cons, heq,
              List.mem_append, List.mem_cons]
            tauto
    · rename_i heq
      split at h
      · simp at h
      · rename_i p hfind
        split at h
        · simp at h
        · rename_i tl hrec
          simp only [Except.ok.injEq] at h
          subst h
          obtain ⟨hlen, hff⟩ := ih (p :: used) tl hrec
          obtain ⟨ha, hb, hc, hd⟩ :=
            find_free_port_some used (hi + 1 - lo) lo p hfind
          refine ⟨by simpa using hlen, ?_⟩
          intro i m him hnone
          cases i with
          | zero =>
            simp only [List.getElem?_cons_zero, Option.some.injEq] at him
            subst him
            refine ⟨p, by simp, ?_⟩
            refine least_free_congr (fun x => ?_) ⟨ha, by omega, hc, hd⟩
            simp [ports_of]
          | succ i =>
            simp only [List.getElem?_cons_succ] at him
            obtain ⟨p', hp', hlf⟩ := hff i m him hnone
            refine ⟨p', by simpa [List.getElem?_cons_succ] using hp', ?_⟩
            refine least_free_congr (fun x => ?_) hlf
            simp only [List.take_succ_cons, ports_of, List.filterMap_cons,
              List.mem_append, List.mem_cons]
            tauto

/-- An explicit mapping whose port is already claimed — by the incoming
used-set or by any earlier mapping of the same call — makes the whole
call fail with `PortConflict`, provided the earlier mappings themselves
succeed. -/
theorem allocate_go_conflict (lo hi : Nat) :
    ∀ (pre : List PortMapping) (used : List Nat) (outPre : List PortMapping)
      (m : PortMapping) (rest : List PortMapping) (p : Nat),
      allocate_go lo hi used pre = .ok outPre →
      m.host_port = some p →
      p ∈ used ++ ports_of outPre →
      allocate_go lo hi used (pre ++ m :: rest) = .error .PortConflict := by
  intro pre
  induction pre with
  | nil =>
    intro used outPre m rest p h hm hp
    rw [allocate_go] at h
    simp only [Except.ok.injEq] at h
    subst h
    simp only [ports_of, List.filterMap_nil, List.append_nil] at hp
    simp [allocate_go, hm, hp]
  | cons m0 pre' ih =>
    intro used outPre m rest p h hm hp
    rw [allocate_go] at h
    split at h
    · rename_i q heq
      split at h
      · simp at h
      · rename_i hq
        split at h
        · simp at h
        · rename_i tl hrec
          simp only [Except.ok.injEq] at h
          subst h
          have hp' : p ∈ (q :: used) ++ ports_of tl := by
            simp only [ports_of, List.filterMap_cons, heq] at hp
            simp only [List.mem_append, List.mem_cons] at hp ⊢
            tauto
          have hres := ih (q :: used) tl m rest p hrec hm hp'
          simp [allocate_go, heq, hq, hres]
    · rename_i heq
      split at h
      · simp at h
      · rename_i q hfind
        split at h
        · simp at h
        · rename_i tl hrec
          simp only [Except.ok.injEq] at h
          subst h
          have hp' : p ∈ (q :: used) ++ ports_of tl := by
            simp only [ports_of, List.filterMap_cons] at hp
            simp only [List.mem_append, List.mem_cons] at hp ⊢
            tauto
          have hres := ih (q :: used) tl m rest p hrec hm hp'
          simp [allocate_go, heq, hfind, hres]

/-- A successful allocation returns every explicitly-requested mapping
unchanged. -/
theorem allocate_go_keeps_explicit (lo hi : Nat) :
    ∀ (req : List PortMapping) (used : List Nat) (out : List PortMapping)
      (i : Nat) (m : PortMapping),
      allocate_go lo hi used req = .ok out →
      req[i]? = some m → m.host_port.isSome → out[i]? = some m := by
  intro req
  induction req with
  | nil => intro used out i m h him _; simp at him
  | cons m0 rest ih =>
    intro used out i m h him hsome
    rw [allocate_go] at h
    split at h
    · split at h
      · simp at h
      · split at h
        · simp at h
        · rename_i tl hrec
          simp only [Except.ok.injEq] at h
          subst h
          cases i with
          | zero =>
            simp only [List.getElem?_cons_zero] at him ⊢
            exact him
          | succ i =>
            simp only [List.getElem?_cons_succ] at him ⊢
            exact ih _ tl i m hrec him hsome
    · rename_i heq
      split at h
      · simp at h
      · split at h
        · simp at h
        · rename_i tl hrec
          simp only [Except.ok.injEq] at h
          subst h
          cases i with
          | zero =>
            simp only [List.getElem?_cons_zero, Option.some.injEq] at him
            rw [← him, heq] at hsome
            simp at hsome
          | succ i =>
            simp only [List.getElem?_cons_succ] at him ⊢
            exact ih _ tl i m hrec him hsome

/-! ## Claim theorems -/

/-- C1: Port disjointness invariant — in every store state reachable by
a sequence of interleaved `create` calls (linearized at the store's
serialization point), the persisted `host_port` values across all
non-destroyed environments are pairwise disjoint: the concatenation of
all persisted host ports contains no duplicates. -/
theorem port_disjointness (db : Db) (h : Reachable db) :
    (get_used_ports db).Nodup := by
  induction h with
  | init => simp [get_used_ports]
  | create db input id now config runtime _h hfresh ih =>
    have hfr := fresh_of_get_none db id hfresh
    simp only [create_handler, create_environment]
    cases halloc : allocate_ports config (get_used_ports db) (input.ports.getD []) with
    | error e =>
      simp only [halloc, update_environment_status]
      rw [update_row_append _ _ _ _ hfr rfl]
      rw [get_used_ports_append]
      simpa using ih
    | ok allocated =>
      simp only [halloc]
      cases runtime with
      | error pe =>
        simp only [update_environment_status]
        rw [update_row_append _ _ _ _ hfr rfl]
        rw [get_used_ports_append]
        simpa using ih
      | ok cid =>
        simp only [update_environment_container]
        rw [update_row_append _ _ _ _ hfr rfl]
        rw [get_used_ports_append]
        simp only [if_neg (by simp : ¬ ("running" : String) = "destroyed")]
        rw [List.nodup_append]
        obtain ⟨hnd, hdisj⟩ :=
          allocate_go_fresh config.port_range_start config.port_range_end
            (input.ports.getD []) (get_used_ports db) allocated halloc
        refine ⟨ih, ?_, ?_⟩
        · simpa [host_ports, ports_of] using hnd
        · intro a ha ha'
          have : a ∈ ports_of allocated := by
            simpa [host_ports, ports_of] using ha'
          exact hdisj a this ha

/-- Witness for C1: the invariant, evaluated on the concrete state
reached by one successful `create` from the empty store. -/
theorem port_disjointness_witness :
    (get_used_ports (create_handler ⟨[]⟩
      ⟨"p1", "feature/x", some [⟨"ui", 3000, none, none⟩]⟩
      "e1" "t1" ⟨"podman", 10000, 10001⟩ (.ok "c1")).1).Nodup :=
  port_disjointness _ (Reachable.create ⟨[]⟩
    ⟨"p1", "feature/x", some [⟨"ui", 3000, none, none⟩]⟩
    "e1" "t1" ⟨"podman", 10000, 10001⟩ (.ok "c1") Reachable.init rfl)

/-- C2: Allocator first-fit assignment — on success every mapping whose
`host_port` was unset receives the least port of the configured range
that is free with respect to the working used-set (the incoming used
ports plus the ports claimed earlier in the same call), and with range
`[10000, 10001]` both of whose ports are already used, requesting one
unassigned port fails with `RangeExhausted`.  (Determinism is by
construction: `allocate_ports` is a pure function of its arguments.) -/
theorem allocate_first_fit :
    (∀ (config : PodmanConfig) (used : List Nat) (req out : List PortMapping),
      allocate_ports config used req = .ok out →
      out.length = req.length ∧
      ∀ i m, req[i]? = some m → m.host_port = none →
        ∃ p, out[i]? = some { m with host_port := some p } ∧
          least_free (used ++ ports_of (out.take i))
            config.port_range_start config.port_range_end p) ∧
    allocate_ports ⟨"podman", 10000, 10001⟩ [10000, 10001]
      [⟨"web", 3000, none, none⟩] = .error .RangeExhausted := by
  constructor
  · intro config used req out h
    exact allocate_go_first_fit _ _ req used out h
  · rfl

/-- Witness for C2: allocating one unset mapping from range
`[10000, 10001]` with nothing used assigns `10000`, and `10000` is the
least free port there. -/
theorem allocate_first_fit_witness :
    ∃ p,
      ([({ name := "ui", container_port := 3000, host_port := some 10000,
            protocol := none } : PortMapping)])[0]? =
        some { ({ name := "ui", container_port := 3000, host_port := none,
                  protocol := none } : PortMapping) with host_port := some p } ∧
      least_free
        ([] ++ ports_of (List.take 0
          [({ name := "ui", container_port := 3000, host_port := some 10000,
              protocol := none } : PortMapping)]))
        10000 10001 p :=
  (allocate_first_fit.1 ⟨"podman", 10000, 10001⟩ []
    [{ name := "ui", container_port := 3000, host_port := none, protocol := none }]
    [{ name := "ui", container_port := 3000, host_port := some 10000, protocol := none }]
    rfl).2 0
    { name := "ui", container_port := 3000, host_port := none, protocol := none }
    rfl rfl

/-- C3: Allocator explicit-port conflict — an explicitly requested
`host_port` that is already in the used-set, or was claimed by an
earlier mapping of the same call, makes the call fail with
`PortConflict` (provided processing reaches it, i.e. the earlier
mappings succeed); a successful call keeps every explicit mapping
unchanged.  `allocate_ports` is a pure function, so a failing call
returns only the error value and no partial assignment escapes. -/
theorem allocate_explicit_conflict :
    (∀ (config : PodmanConfig) (used : List Nat) (pre outPre : List PortMapping)
        (m : PortMapping) (rest : List PortMapping) (p : Nat),
      allocate_ports config used pre = .ok outPre →
      m.host_port = some p →
      p ∈ used ++ ports_of outPre →
      allocate_ports config used (pre ++ m :: rest) = .error .PortConflict) ∧
    (∀ (config : PodmanConfig) (used : List Nat) (req out : List PortMapping)
        (i : Nat) (m : PortMapping),
      allocate_ports config used req = .ok out →
      req[i]? = some m → m.host_port.isSome → out[i]? = some m) := by
  constructor
  · intro config used pre outPre m rest p h hm hp
    exact allocate_go_conflict _ _ pre used outPre m rest p h hm hp
  · intro config used req out i m h him hsome
    exact allocate_go_keeps_explicit _ _ req used out i m h him hsome

/-- Witness for C3: requesting explicit host port `10005` while `10005`
is already used fails with `PortConflict`. -/
theorem allocate_explicit_conflict_witness :
    allocate_ports ⟨"podman", 10000, 11000⟩ [10005]
      ([] ++ ({ name := "api", container_port := 8080, host_port := some 10005,
                protocol := none } : PortMapping) :: []) = .error .PortConflict :=
  allocate_explicit_conflict.1 ⟨"podman", 10000, 11000⟩ [10005] [] []
    { name := "api", container_port := 8080, host_port := some 10005, protocol := none }
    [] 10005 rfl rfl (by simp [ports_of])

/-- C4: Compensation on create failure — when the container runtime
fails during `create` (after a successful allocation), the call returns
a runtime error, the row for the new environment has status
`"destroyed"`, and no row with that id is left in status
`"creating"`. -/
theorem create_compensates_on_runtime_failure (db : Db) (input : CreateEnvironment)
    (id now : String) (config : PodmanConfig) (pe : PodmanError)
    (allocated : List PortMapping)
    (hfresh : get_environment db id = none)
    (halloc : allocate_ports config (get_used_ports db) (input.ports.getD []) =
      .ok allocated) :
    (create_handler db input id now config (.error pe)).2 =
      .error (.RuntimeFailed pe) ∧
    get_environment (create_handler db input id now config (.error pe)).1 id =
      some { id := id, project_id := input.project_id, branch := input.branch,
             status := "destroyed", container_id := "",
             ports := input.ports.getD [], created_at := now, last_active := now } ∧
    ∀ env', env' ∈ (create_handler db input id now config (.error pe)).1.environments →
      env'.id = id → env'.status ≠ "creating" := by
  have hfr := fresh_of_get_none db id hfresh
  refine ⟨?_, ?_, ?_⟩
  · simp [create_handler, create_environment, halloc]
  · simp only [create_handler, create_environment, halloc, update_environment_status]
    rw [update_row_append _ _ _ _ hfr rfl]
    exact get_append_fresh _ _ _ hfr rfl
  · intro env' hmem hid'
    simp only [create_handler, create_environment, halloc,
      update_environment_status] at hmem
    rw [update_row_append _ _ _ _ hfr rfl] at hmem
    simp only [List.mem_append, List.mem_singleton] at hmem
    rcases hmem with hmem | hmem
    · exact absurd hid' (hfr env' hmem)
    · subst hmem
      simp

/-- Witness for C4: a failed `podman run` on a create from the empty
store leaves the row destroyed and surfaces the runtime error. -/
theorem create_compensates_witness :
    (create_handler ⟨[]⟩ ⟨"p1", "feature/x", some [⟨"ui", 3000, none, none⟩]⟩
        "e1" "t1" ⟨"podman", 10000, 10001⟩
        (.error (.CommandFailed "podman run" "image not found" 125))).2 =
      .error (.RuntimeFailed (.CommandFailed "podman run" "image not found" 125)) ∧
    get_environment (create_handler ⟨[]⟩
        ⟨"p1", "feature/x", some [⟨"ui", 3000, none, none⟩]⟩
        "e1" "t1" ⟨"podman", 10000, 10001⟩
        (.error (.CommandFailed "podman run" "image not found" 125))).1 "e1" =
      some { id := "e1", project_id := "p1", branch := "feature/x",
             status := "destroyed", container_id := "",
             ports := (some [(⟨"ui", 3000, none, none⟩ : PortMapping)]).getD [],
             created_at := "t1", last_active := "t1" } ∧
    ∀ env', env' ∈ (create_handler ⟨[]⟩
        ⟨"p1", "feature/x", some [⟨"ui", 3000, none, none⟩]⟩
        "e1" "t1" ⟨"podman", 10000, 10001⟩
        (.error (.CommandFailed "podman run" "image not found" 125))).1.environments →
      env'.id = "e1" → env'.status ≠ "creating" :=
  create_compensates_on_runtime_failure ⟨[]⟩
    ⟨"p1", "feature/x", some [⟨"ui", 3000, none, none⟩]⟩ "e1" "t1"
    ⟨"podman", 10000, 10001⟩ (.CommandFailed "podman run" "image not found" 125)
    [⟨"ui", 3000, some 10000, none⟩] rfl rfl

/-- C5: Lifecycle legality — `pause` requires current status
`"running"` and fails with `Conflict` for any other status (`creating`,
`paused`, `destroyed`, ...), `resume` requires `"paused"` and fails with
`Conflict` otherwise; in the `Conflict` case the store is returned
unchanged. -/
theorem lifecycle_legality (db : Db) (id now : String) (env : Environment)
    (stop start : Except PodmanError Unit)
    (hget : get_environment db id = some env) :
    (env.status ≠ "running" →
      pause_handler db id now stop = (db, .error .Conflict)) ∧
    (env.status ≠ "paused" →
      resume_handler db id now start = (db, .error .Conflict)) := by
  constructor
  · intro hs
    simp [pause_handler, hget, hs]
  · intro hs
    simp [resume_handler, hget, hs]

/-- Witness for C5: `pause` and `resume` on an environment in status
`"creating"` both fail with `Conflict` and leave the store unchanged. -/
theorem lifecycle_legality_witness :
    pause_handler ⟨[⟨"e1", "p1", "main", "creating", "", [], "t0", "t0"⟩]⟩
        "e1" "t1" (.ok ()) =
      (⟨[⟨"e1", "p1", "main", "creating", "", [], "t0", "t0"⟩]⟩, .error .Conflict) ∧
    resume_handler ⟨[⟨"e1", "p1", "main", "creating", "", [], "t0", "t0"⟩]⟩
        "e1" "t1" (.ok ()) =
      (⟨[⟨"e1", "p1", "main", "creating", "", [], "t0", "t0"⟩]⟩, .error .Conflict) :=
  ⟨(lifecycle_legality ⟨[⟨"e1", "p1", "main", "creating", "", [], "t0", "t0"⟩]⟩
      "e1" "t1" ⟨"e1", "p1", "main", "creating", "", [], "t0", "t0"⟩
      (.ok ()) (.ok ()) rfl).1 (by decide),
   (lifecycle_legality ⟨[⟨"e1", "p1", "main", "creating", "", [], "t0", "t0"⟩]⟩
      "e1" "t1" ⟨"e1", "p1", "main", "creating", "", [], "t0", "t0"⟩
      (.ok ()) (.ok ()) rfl).2 (by decide)⟩

/-- C6: Pause then resume preserves ports — starting from a running
environment, `pause` succeeds and rewrites only `status` (to
`"paused"`) and `last_active`; `resume` then succeeds and rewrites only
`status` (to `"running"`) and `last_active`; in particular the `ports`
list, and with it every `host_port` assigned at create time, is
unchanged, and allocation is never re-run (neither handler calls the
allocator).  Rows of other environments are untouched. -/
theorem pause_resume_preserves_ports (db : Db) (id t1 t2 : String)
    (env : Environment)
    (hget : get_environment db id = some env) (hrun : env.status = "running") :
    (pause_handler db id t1 (.ok ())).2 = .ok () ∧
    get_environment (pause_handler db id t1 (.ok ())).1 id =
      some { env with status := "paused", last_active := t1 } ∧
    (resume_handler (pause_handler db id t1 (.ok ())).1 id t2 (.ok ())).2 = .ok () ∧
    get_environment
        (resume_handler (pause_handler db id t1 (.ok ())).1 id t2 (.ok ())).1 id =
      some { env with status := "running", last_active := t2 } ∧
    ∀ e ∈ db.environments, e.id ≠ id →
      e ∈ (resume_handler (pause_handler db id t1 (.ok ())).1 id t2
        (.ok ())).1.environments := by
  have hP : pause_handler db id t1 (.ok ()) =
      ((update_environment_status db id "paused" t1).2, .ok ()) := by
    by_cases hc : env.container_id = "" <;> simp [pause_handler, hget, hrun, hc]
  have hgetP : get_environment (update_environment_status db id "paused" t1).2 id =
      some { env with status := "paused", last_active := t1 } :=
    get_update_row db id env _ hget rfl
  have hR : resume_handler (update_environment_status db id "paused" t1).2 id t2
        (.ok ()) =
      ((update_environment_status (update_environment_status db id "paused" t1).2
        id "running" t2).2, .ok ()) := by
    by_cases hc : env.container_id = "" <;> simp [resume_handler, hgetP, hc]
  have hgetR : get_environment
      (update_environment_status (update_environment_status db id "paused" t1).2
        id "running" t2).2 id =
      some { env with status := "running", last_active := t2 } :=
    get_update_row _ id { env with status := "paused", last_active := t1 } _ hgetP rfl
  refine ⟨by rw [hP], by rw [hP]; exact hgetP, by rw [hP]; rw [hR],
    by rw [hP]; rw [hR]; exact hgetR, ?_⟩
  intro e he hne
  rw [hP, hR]
  exact mem_update_row_of_ne _ id _ e (mem_update_row_of_ne _ id _ e he hne) hne

/-- Witness for C6: pausing then resuming a concrete running
environment leaves its ports at the values assigned at create time. -/
theorem pause_resume_preserves_ports_witness :
    (pause_handler ⟨[⟨"e1", "p1", "main", "running", "c1",
        [⟨"ui", 3000, some 10000, none⟩], "t0", "t0"⟩]⟩ "e1" "t1" (.ok ())).2 =
      .ok () ∧
    get_environment (pause_handler ⟨[⟨"e1", "p1", "main", "running", "c1",
        [⟨"ui", 3000, some 10000, none⟩], "t0", "t0"⟩]⟩ "e1" "t1" (.ok ())).1 "e1" =
      some { (⟨"e1", "p1", "main", "running", "c1",
        [⟨"ui", 3000, some 10000, none⟩], "t0", "t0"⟩ : Environment) with
          status := "paused", last_active := "t1" } ∧
    (resume_handler (pause_handler ⟨[⟨"e1", "p1", "main", "running", "c1",
        [⟨"ui", 3000, some 10000, none⟩], "t0", "t0"⟩]⟩ "e1" "t1" (.ok ())).1
      "e1" "t2" (.ok ())).2 = .ok () ∧
    get_environment (resume_handler (pause_handler
        ⟨[⟨"e1", "p1", "main", "running", "c1",
          [⟨"ui", 3000, some 10000, none⟩], "t0", "t0"⟩]⟩ "e1" "t1" (.ok ())).1
        "e1" "t2" (.ok ())).1 "e1" =
      some { (⟨"e1", "p1", "main", "running", "c1",
        [⟨"ui", 3000, some 10000, none⟩], "t0", "t0"⟩ : Environment) with
          status := "running", last_active := "t2" } ∧
    ∀ e ∈ (⟨[⟨"e1", "p1", "main", "running", "c1",
        [⟨"ui", 3000, some 10000, none⟩], "t0", "t0"⟩]⟩ : Db).environments,
      e.id ≠ "e1" →
      e ∈ (resume_handler (pause_handler ⟨[⟨"e1", "p1", "main", "running", "c1",
        [⟨"ui", 3000, some 10000, none⟩], "t0", "t0"⟩]⟩ "e1" "t1" (.ok ())).1
        "e1" "t2" (.ok ())).1.environments :=
  pause_resume_preserves_ports ⟨[⟨"e1", "p1", "main", "running", "c1",
    [⟨"ui", 3000, some 10000, none⟩], "t0", "t0"⟩]⟩ "e1" "t1" "t2"
    ⟨"e1", "p1", "main", "running", "c1",
      [⟨"ui", 3000, some 10000, none⟩], "t0", "t0"⟩ rfl rfl

/-- C8: Exec contract — `exec` never writes to the store; when the
environment is `"running"` with a non-empty `container_id` it returns
the runtime adapter's `{output, exit_code}` result unmodified (a runtime
failure passes through as `RuntimeFailed`); any other status or an empty
`container_id` fails with `Conflict`. -/
theorem exec_contract (db : Db) (id command : String) (env : Environment)
    (runtime : Except PodmanError ExecResult)
    (hget : get_environment db id = some env) :
    (exec_handler db id command runtime).1 = db ∧
    (env.status = "running" → env.container_id ≠ "" →
      (exec_handler db id command runtime).2 =
        match runtime with
        | .ok r => .ok r
        | .error pe => .error (.RuntimeFailed pe)) ∧
    (¬(env.status = "running" ∧ env.container_id ≠ "") →
      (exec_handler db id command runtime).2 = .error .Conflict) := by
  refine ⟨?_, ?_, ?_⟩
  · rcases runtime with pe | r <;> by_cases hs : env.status = "running" <;>
      by_cases hc : env.container_id = "" <;> simp [exec_handler, hget, hs, hc]
  · intro hs hc
    rcases runtime with pe | r <;> simp [exec_handler, hget, hs, hc]
  · intro hno
    by_cases hs : env.status = "running"
    · have hc : env.container_id = "" := by
        by_contra hc
        exact hno ⟨hs, hc⟩
      simp [exec_handler, hget, hs, hc]
    · simp [exec_handler, hget, hs]

/-- Witness for C8: exec on a running environment passes the adapter's
result through; exec on a paused environment is a `Conflict`. -/
theorem exec_contract_witness :
    (exec_handler ⟨[⟨"e1", "p1", "main", "running", "c1", [], "t0", "t0"⟩]⟩
      "e1" "ls" (.ok ⟨"out", 0⟩)).1 =
        ⟨[⟨"e1", "p1", "main", "running", "c1", [], "t0", "t0"⟩]⟩ ∧
    (exec_handler ⟨[⟨"e1", "p1", "main", "running", "c1", [], "t0", "t0"⟩]⟩
      "e1" "ls" (.ok ⟨"out", 0⟩)).2 = .ok ⟨"out", 0⟩ ∧
    (exec_handler ⟨[⟨"e2", "p1", "main", "paused", "c2", [], "t0", "t0"⟩]⟩
      "e2" "ls" (.ok ⟨"out", 0⟩)).2 = .error .Conflict :=
  ⟨(exec_contract ⟨[⟨"e1", "p1", "main", "running", "c1", [], "t0", "t0"⟩]⟩
      "e1" "ls" ⟨"e1", "p1", "main", "running", "c1", [], "t0", "t0"⟩
      (.ok ⟨"out", 0⟩) rfl).1,
   (exec_contract ⟨[⟨"e1", "p1", "main", "running", "c1", [], "t0", "t0"⟩]⟩
      "e1" "ls" ⟨"e1", "p1", "main", "running", "c1", [], "t0", "t0"⟩
      (.ok ⟨"out", 0⟩) rfl).2.1 rfl (by decide),
   (exec_contract ⟨[⟨"e2", "p1", "main", "paused", "c2", [], "t0", "t0"⟩]⟩
      "e2" "ls" ⟨"e2", "p1", "main", "paused", "c2", [], "t0", "t0"⟩
      (.ok ⟨"out", 0⟩) rfl).2.2 (by decide)⟩

/-- C9: The store-level status update is unconditional — for every id
present in the store and every status string `s` (including values
outside the enum and transitions the state machine forbids),
`update_environment_status` reports a matched row and a subsequent get
returns status `s`; no transition-legality check happens at the store
layer. -/
theorem update_status_unconditional (db : Db) (id s now : String)
    (env : Environment) (hget : get_environment db id = some env) :
    (update_environment_status db id s now).1 = true ∧
    get_environment (update_environment_status db id s now).2 id =
      some { env with status := s, last_active := now } := by
  constructor
  · exact any_of_get_some db id env hget
  · exact get_update_row db id env _ hget rfl

/-- Witness for C9: the store accepts the illegal transition
`destroyed → running` without complaint. -/
theorem update_status_unconditional_witness :
    (update_environment_status
      ⟨[⟨"e1", "p1", "main", "destroyed", "", [], "t0", "t0"⟩]⟩
      "e1" "running" "t1").1 = true ∧
    get_environment (update_environment_status
      ⟨[⟨"e1", "p1", "main", "destroyed", "", [], "t0", "t0"⟩]⟩
      "e1" "running" "t1").2 "e1" =
      some { (⟨"e1", "p1", "main", "destroyed", "", [], "t0", "t0"⟩ :
          Environment) with status := "running", last_active := "t1" } :=
  update_status_unconditional
    ⟨[⟨"e1", "p1", "main", "destroyed", "", [], "t0", "t0"⟩]⟩
    "e1" "running" "t1"
    ⟨"e1", "p1", "main", "destroyed", "", [], "t0", "t0"⟩ rfl

/-- C10: list does not hide tombstones — `list_environments` returns
exactly the rows whose `project_id` matches (as a permutation of that
filter), ordered by `created_at` descending, with no filter on
`status`: in particular every destroyed row of the project is a member
of the result. -/
theorem list_includes_destroyed (db : Db) (project_id : String) :
    (list_environments db project_id).Perm
      (db.environments.filter (fun e => decide (e.project_id = project_id))) ∧
    List.Sorted created_desc (list_environments db project_id) ∧
    ∀ e ∈ db.environments, e.project_id = project_id →
      e ∈ list_environments db project_id := by
  refine ⟨List.perm_insertionSort created_desc _,
    List.sorted_insertionSort created_desc _, ?_⟩
  intro e he hp
  have hmem : e ∈ db.environments.filter
      (fun e => decide (e.project_id = project_id)) :=
    List.mem_filter.mpr ⟨he, by simpa using hp⟩
  exact (List.perm_insertionSort created_desc _).mem_iff.mpr hmem

/-- Witness for C10: a destroyed environment of the project appears in
the list result. -/
theorem list_includes_destroyed_witness :
    (⟨"e1", "p1", "main", "destroyed", "", [], "t0", "t0"⟩ : Environment) ∈
      list_environments
        ⟨[⟨"e1", "p1", "main", "destroyed", "", [], "t0", "t0"⟩]⟩ "p1" :=
  (list_includes_destroyed
    ⟨[⟨"e1", "p1", "main", "destroyed", "", [], "t0", "t0"⟩]⟩ "p1").2.2
    ⟨"e1", "p1", "main", "destroyed", "", [], "t0", "t0"⟩ (by simp) rfl

/-- C7 counterexample: `delete` does not tombstone.  On a store holding
one running environment, `delete("e1")` succeeds, and afterwards no
record for `"e1"` is retained — the row is physically gone and the
table is empty, refuting the claim that a terminal-status record is
kept. -/
theorem delete_tombstone_counterexample :
    (delete_handler ⟨[⟨"e1", "p1", "main", "running", "c1",
        [⟨"ui", 3000, some 10000, none⟩], "t0", "t0"⟩]⟩ "e1").2 = .ok () ∧
    get_environment (delete_handler ⟨[⟨"e1", "p1", "main", "running", "c1",
        [⟨"ui", 3000, some 10000, none⟩], "t0", "t0"⟩]⟩ "e1").1 "e1" = none ∧
    (delete_handler ⟨[⟨"e1", "p1", "main", "running", "c1",
        [⟨"ui", 3000, some 10000, none⟩], "t0", "t0"⟩]⟩ "e1").1.environments =
      [] := by
  refine ⟨rfl, rfl, rfl⟩

/-- C7 (amended): after `delete(envId)` succeeds the environment row is
physically removed from the store (a subsequent get finds nothing)
rather than retained as a tombstone, and its host ports are freed for
future allocation: every port still in the used-port set is claimed by
some other, surviving environment, and — delete-frees-port scenario — a
create after a delete is assigned the same `host_port` `10000` again. -/
theorem delete_removes_and_frees (db : Db) (id : String) (env : Environment)
    (hget : get_environment db id = some env) :
    (delete_handler db id).2 = .ok () ∧
    get_environment (delete_handler db id).1 id = none ∧
    (∀ p, p ∈ get_used_ports (delete_handler db id).1 →
      ∃ e, e ∈ db.environments ∧ e.id ≠ id ∧ e.status ≠ "destroyed" ∧
        p ∈ host_ports e) ∧
    get_environment (create_handler (delete_handler (create_handler ⟨[]⟩
        ⟨"p1", "feature/x", some [⟨"ui", 3000, none, none⟩]⟩ "e1" "t1"
        ⟨"podman", 10000, 10001⟩ (.ok "c1")).1 "e1").1
      ⟨"p1", "y", some [⟨"ui", 3000, none, none⟩]⟩ "e2" "t2"
      ⟨"podman", 10000, 10001⟩ (.ok "c2")).1 "e2" =
      some ⟨"e2", "p1", "y", "running", "c2",
        [⟨"ui", 3000, some 10000, none⟩], "t2", "t2"⟩ := by
  have hany := any_of_get_some db id env hget
  refine ⟨?_, ?_, ?_, rfl⟩
  · simp [delete_handler, hget, delete_environment, hany]
  · simp only [delete_handler, hget, delete_environment]
    rw [get_environment]
    refine List.find?_eq_none.mpr ?_
    intro x hx
    have hxq := (List.mem_filter.mp hx).2
    simp only [Bool.not_eq_eq_eq_not, Bool.not_true, decide_eq_false_iff_not] at hxq
    simp [hxq]
  · intro p hp
    simp only [delete_handler, hget, delete_environment, get_used_ports,
      List.mem_flatten, List.mem_map] at hp
    obtain ⟨l', ⟨e, he, rfl⟩, hpe⟩ := hp
    have he1 := List.mem_filter.mp he
    have he2 := List.mem_filter.mp he1.1
    refine ⟨e, he2.1, ?_, ?_, hpe⟩
    · simpa using he2.2
    · simpa using he1.2

/-- Witness for C7: deleting the only environment of a concrete store
removes it and leaves no used ports behind. -/
theorem delete_removes_and_frees_witness :
    (delete_handler ⟨[⟨"e9", "p1", "main", "running", "c9",
        [⟨"ui", 3000, some 10000, none⟩], "t0", "t0"⟩]⟩ "e9").2 = .ok () ∧
    get_environment (delete_handler ⟨[⟨"e9", "p1", "main", "running", "c9",
        [⟨"ui", 3000, some 10000, none⟩], "t0", "t0"⟩]⟩ "e9").1 "e9" = none ∧
    (∀ p, p ∈ get_used_ports (delete_handler
        ⟨[⟨"e9", "p1", "main", "running", "c9",
          [⟨"ui", 3000, some 10000, none⟩], "t0", "t0"⟩]⟩ "e9").1 →
      ∃ e, e ∈ (⟨[⟨"e9", "p1", "main", "running", "c9",
          [⟨"ui", 3000, some 10000, none⟩], "t0", "t0"⟩]⟩ : Db).environments ∧
        e.id ≠ "e9" ∧ e.status ≠ "destroyed" ∧ p ∈ host_ports e) ∧
    get_environment (create_handler (delete_handler (create_handler ⟨[]⟩
        ⟨"p1", "feature/x", some [⟨"ui", 3000, none, none⟩]⟩ "e1" "t1"
        ⟨"podman", 10000, 10001⟩ (.ok "c1")).1 "e1").1
      ⟨"p1", "y", some [⟨"ui", 3000, none, none⟩]⟩ "e2" "t2"
      ⟨"podman", 10000, 10001⟩ (.ok "c2")).1 "e2" =
      some ⟨"e2", "p1", "y", "running", "c2",
        [⟨"ui", 3000, some 10000, none⟩], "t2", "t2"⟩ :=
  delete_removes_and_frees ⟨[⟨"e9", "p1", "main", "running", "c9",
    [⟨"ui", 3000, some 10000, none⟩], "t0", "t0"⟩]⟩ "e9"
    ⟨"e9", "p1", "main", "running", "c9",
      [⟨"ui", 3000, some 10000, none⟩], "t0", "t0"⟩ rfl

end BotGlue
